import Mathlib

set_option maxRecDepth 100000

/-!
Verification of the Mason County jail-roster monitor's extraction and
change-detection core.  Strings are modelled as lists of characters.
-/

namespace Roster

/-- Character strings, modelled as lists of characters. -/
abbrev Str := List Char

/-- JavaScript's `\s` class restricted to the ASCII whitespace characters
that occur in the sources' text domain. -/
def isWs (c : Char) : Bool :=
  c = ' ' || c = '\t' || c = '\n' || c = '\r' || c = '\x0b' || c = '\x0c'

/-- ASCII decimal digit test (`\d`). -/
def isDigitCh (c : Char) : Bool := '0' ≤ c && c ≤ '9'

/-- ASCII uppercase letter test (`[A-Z]` without the `i` flag). -/
def isUpperCh (c : Char) : Bool := 'A' ≤ c && c ≤ 'Z'

/-- ASCII lowercase letter test. -/
def isLowerCh (c : Char) : Bool := 'a' ≤ c && c ≤ 'z'

/-- ASCII letter test (`[A-Z]` under the `i` flag, or `[A-Za-z]`). -/
def isAlphaCh (c : Char) : Bool := isUpperCh c || isLowerCh c

/-- ASCII word character (`\w`). -/
def isWordCh (c : Char) : Bool := isAlphaCh c || isDigitCh c || c = '_'

/-- ASCII case folding used for the regexes carrying the `i` flag. -/
def lowerCh (c : Char) : Char :=
  if isUpperCh c then Char.ofNat (c.toNat + 32) else c

/-- `String.prototype.trim`: drop whitespace from both ends. -/
def strTrim (s : Str) : Str :=
  ((s.dropWhile isWs).reverse.dropWhile isWs).reverse

/-- Worker for `collapseWs`; the flag records whether the previous character
belonged to a whitespace run already replaced by a single space. -/
def collapseWsAux : Bool → Str → Str
  | _, [] => []
  | prevWs, c :: rest =>
    if isWs c then
      (if prevWs then [] else [' ']) ++ collapseWsAux true rest
    else
      c :: collapseWsAux false rest

/-- `.replace(/\s+/g, " ")`: every maximal whitespace run becomes one space. -/
def collapseWs (s : Str) : Str := collapseWsAux false s

/-- `.replace(/\s+/g, "")`: remove every whitespace character. -/
def removeWs (s : Str) : Str := s.filter (fun c => !(isWs c))

/-- `.replace(/\.\s*$/, "")`.  The pattern has at most one match: a period
followed only by whitespace up to the end of the string; if present, the
period and the trailing whitespace are deleted. -/
def stripTrailPeriod (s : Str) : Str :=
  match s.reverse.dropWhile isWs with
  | '.' :: r => r.reverse
  | _ => s

/-- `cleanName` from `fetchReleaseStats` (src/server.js:48):
`name.trim().replace(/\.\s*$/, "").replace(/\s+/g, " ")`. -/
def cleanName (s : Str) : Str :=
  collapseWs (stripTrailPeriod (strTrim s))

/-- Whitespace discipline of a collapsed string: every whitespace character
is a single space not preceded by another whitespace character; the flag
records whether the previous character was whitespace. -/
def wsOk : Bool → Str → Bool
  | _, [] => true
  | prevWs, c :: r =>
    if isWs c then (decide (c = ' ') && !prevWs) && wsOk true r
    else wsOk false r

/-- The string does not start with a whitespace character. -/
def leadOk : Str → Bool
  | [] => true
  | c :: _ => !isWs c

/-- Literal-prefix test (case sensitive). -/
def litPre : Str → Str → Bool
  | [], _ => true
  | _ :: _, [] => false
  | p :: ps, c :: cs => p = c && litPre ps cs

/-- Literal-prefix test under ASCII case folding (regex `i` flag). -/
def ciPre : Str → Str → Bool
  | [], _ => true
  | _ :: _, [] => false
  | p :: ps, c :: cs => lowerCh p = lowerCh c && ciPre ps cs

/-- `String.prototype.includes`. -/
def containsSub (pat : Str) : Str → Bool
  | [] => litPre pat []
  | c :: rest => litPre pat (c :: rest) || containsSub pat rest

/-- Split a string on `'\n'` (`text.split("\n")`). -/
def splitLines : Str → List Str
  | [] => [[]]
  | c :: rest =>
    if c = '\n' then [] :: splitLines rest
    else
      match splitLines rest with
      | [] => [[c]]
      | l :: ls => (c :: l) :: ls

/-- Decimal digit to its character. -/
def digitCh (n : Nat) : Char :=
  if n = 0 then '0' else if n = 1 then '1' else if n = 2 then '2'
  else if n = 3 then '3' else if n = 4 then '4' else if n = 5 then '5'
  else if n = 6 then '6' else if n = 7 then '7' else if n = 8 then '8' else '9'

/-- Fuelled decimal rendering of a natural number. -/
def natToStrAux : Nat → Nat → Str
  | 0, _ => []
  | f + 1, n =>
    if n < 10 then [digitCh n]
    else natToStrAux f (n / 10) ++ [digitCh (n % 10)]

/-- Decimal rendering of a natural number, as used when JavaScript
concatenates a number into a string. -/
def natToStr (n : Nat) : Str := natToStrAux (n + 1) n

/-- Worker for `dedupFirst`, carrying the set of strings already seen. -/
def dedupFirstAux (seen : List Str) : List Str → List Str
  | [] => []
  | x :: xs =>
    if seen.contains x then dedupFirstAux seen xs
    else x :: dedupFirstAux (x :: seen) xs

/-- `[...new Set(xs)]`: deduplicate keeping first occurrences in order. -/
def dedupFirst (xs : List Str) : List Str := dedupFirstAux [] xs

/-- Last element of a list, `none` when empty. -/
def lastSome? {α : Type} : List α → Option α
  | [] => none
  | [x] => some x
  | _ :: y :: rest => lastSome? (y :: rest)

/-! ### JavaScript `Map` as an association list in insertion order -/

/-- Association list standing for a JavaScript `Map`. -/
abbrev AList (V : Type) := List (Str × V)

/-- `Map.prototype.has`. -/
def mapHasKey {V : Type} (m : AList V) (k : Str) : Bool :=
  m.any (fun p => decide (p.1 = k))

/-- `Map.prototype.get` (keys are unique, so the first hit is the value). -/
def mapGet {V : Type} : AList V → Str → Option V
  | [], _ => none
  | (k', v) :: rest, k => if k' = k then some v else mapGet rest k

/-- `Map.prototype.set`: overwrite the entry holding the key in place
(a `Map` holds each key at most once), or append a new entry. -/
def mapSet {V : Type} : AList V → Str → V → AList V
  | [], k, v => [(k, v)]
  | (a, w) :: rest, k, v =>
    if a = k then (k, v) :: rest else (a, w) :: mapSet rest k v

/-! ### Roster text extraction

Shallow embedding of `extractBookings` (src/server.js:267-345) and
`parseRosterToBookings` (src/.mastra/output/rosterTools.mjs:81-144).
Each regular expression of the source is embedded as a total function with
the engine's leftmost-match and backtracking behaviour spelled out. -/

def bookingMarker : Str := "Booking #:".data
def nameMarker : Str := "Name:".data
def nameNumMarker : Str := "Name Number:".data
def bookDateMarker : Str := "Book Date:".data
def relDateMarker : Str := "Rel Date:".data
def noRelDateLit : Str := "No Rel Date".data
def statuteLit : Str := "Statute".data
def offenseLit : Str := "Offense".data
def courtLit : Str := "Court".data

/-- Worker for `splitBlocks`; `acc` holds the reversed current chunk, and is
empty only at the very start (a zero-width split match at index 0 is
discarded by `String.prototype.split`). -/
def splitBlocksAux : Str → Str → List Str
  | [], acc => [acc.reverse]
  | c :: rest, acc =>
    if !acc.isEmpty && litPre bookingMarker (c :: rest) then
      acc.reverse :: splitBlocksAux rest [c]
    else
      splitBlocksAux rest (c :: acc)

/-- `text.split(/(?=Booking #:)/)`: cut before every occurrence of the
record-start marker. -/
def splitBlocks (s : Str) : List Str := splitBlocksAux s []

/-- `\s*(\S+)` after the id marker: skip whitespace, take the maximal
non-whitespace run, fail on an empty run. -/
def idTokenAt (s : Str) : Option Str :=
  let tok := (s.dropWhile isWs).takeWhile (fun c => !(isWs c))
  if tok.isEmpty then none else some tok

/-- First match of `/Booking #:\s*(\S+)/` over the block. -/
def extractId : Str → Option Str
  | [] => none
  | c :: rest =>
    if litPre bookingMarker (c :: rest) then
      match idTokenAt ((c :: rest).drop bookingMarker.length) with
      | some tok => some tok
      | none => extractId rest
    else extractId rest

/-- Character class `[A-Z\s,'-]` under the `i` flag. -/
def nameClassCh (c : Char) : Bool :=
  isAlphaCh c || isWs c || c = ',' || c = '\'' || c = '-'

/-- The lookahead `(?=\s*Name Number:|$)`; the regex has no `m` flag, so `$`
is the end of the whole block. -/
def nameBoundary (s : Str) : Bool :=
  ciPre nameNumMarker (s.dropWhile isWs) || s.isEmpty

/-- Lazy `[A-Z\s,'-]+?`: consume the fewest characters (at least one) after
which the lookahead holds. -/
def nameLazy (acc : Str) : Str → Option Str
  | [] => none
  | c :: rest =>
    if nameClassCh c then
      if nameBoundary rest then some ((c :: acc).reverse)
      else nameLazy (c :: acc) rest
    else none

/-- Attempt of `/Name:\s*([A-Z][A-Z\s,'-]+?)(?=\s*Name Number:|$)/i` just
after an occurrence of the name label. -/
def nameMatchAt (s : Str) : Option Str :=
  match s.dropWhile isWs with
  | [] => none
  | c :: rest => if isAlphaCh c then nameLazy [c] rest else none

/-- First match of the name regex over the block. -/
def extractName : Str → Option Str
  | [] => none
  | c :: rest =>
    if ciPre nameMarker (c :: rest) then
      match nameMatchAt ((c :: rest).drop nameMarker.length) with
      | some cap => some cap
      | none => extractName rest
    else extractName rest

/-- Class `[A-Z\s'-]` (`i` flag) of the wrapped-name continuation line. -/
def contClassCh (c : Char) : Bool :=
  isAlphaCh c || isWs c || c = '\'' || c = '-'

/-- Attempt of `\s*[^\n]+\n([A-Z][A-Z\s'-]*)` with `\s*` consuming exactly
`j` characters; `[^\n]+` must run to the very next newline, since a shorter
run would leave a non-newline character where `\n` is required. -/
def contMatchJ (s : Str) (j : Nat) : Option Str :=
  let t := s.drop j
  let r := t.takeWhile (fun c => decide (c ≠ '\n'))
  if r.isEmpty then none
  else
    match t.drop r.length with
    | '\n' :: c :: u => if isAlphaCh c then some (c :: u.takeWhile contClassCh) else none
    | _ => none

/-- Greedy backtracking over the `\s*`: longest whitespace run first. -/
def contMatchDown (s : Str) : Nat → Option Str
  | 0 => contMatchJ s 0
  | j + 1 =>
    match contMatchJ s (j + 1) with
    | some cap => some cap
    | none => contMatchDown s j

/-- Attempt of the wrapped-name regex after a `Name:` occurrence. -/
def contMatchAt (s : Str) : Option Str :=
  contMatchDown s (s.takeWhile isWs).length

/-- First match of `/Name:\s*[^\n]+\n([A-Z][A-Z\s'-]*)/i` over the block. -/
def extractNextLine : Str → Option Str
  | [] => none
  | c :: rest =>
    if ciPre nameMarker (c :: rest) then
      match contMatchAt ((c :: rest).drop nameMarker.length) with
      | some cap => some cap
      | none => extractNextLine rest
    else extractNextLine rest

/-- Name of a block in `extractBookings` (src/server.js:278-283). -/
def computeName (block : Str) : Str :=
  match extractName block with
  | none => "Unknown".data
  | some cap =>
    let name := collapseWs (strTrim cap)
    if name.getLast? = some ',' then
      match extractNextLine block with
      | some nl => name ++ ' ' :: strTrim nl
      | none => name
    else name

/-- Name of a block in `parseRosterToBookings` (rosterTools.mjs:89-97): the
whitespace collapse and second trim are applied to both branches there. -/
def computeNameT (block : Str) : Str :=
  let name0 := match extractName block with
    | none => "Unknown".data
    | some cap => strTrim cap
  let name := strTrim (collapseWs name0)
  if name.getLast? = some ',' then
    match extractNextLine block with
    | some nl => name ++ ' ' :: strTrim nl
    | none => name
  else name

/-- `\d{1,2}` followed by a required separator character: the digit run must
have length 1 or 2, and the character after it must be the separator (a
longer run leaves a digit where the separator is required, under both greedy
choices of `{1,2}`). -/
def digits12Then (sep : Char) (s : Str) : Option (Str × Str) :=
  let r := s.takeWhile isDigitCh
  if r.length = 0 || 2 < r.length then none
  else
    match s.drop r.length with
    | c :: rest => if c = sep then some (r, rest) else none
    | [] => none

/-- `\d{2}`: exactly two digits (the caller's next token rejects a third). -/
def digits2 (s : Str) : Option (Str × Str) :=
  match s with
  | a :: b :: rest => if isDigitCh a && isDigitCh b then some ([a, b], rest) else none
  | _ => none

/-- `(\d{1,2}:\d{2}:\d{2})` at the start of `s`: captured text and rest. -/
def timeMatch (s : Str) : Option (Str × Str) :=
  match digits12Then ':' s with
  | none => none
  | some (h, s1) =>
    match digits2 s1 with
    | none => none
    | some (m, s2) =>
      match s2 with
      | ':' :: s3 =>
        match digits2 s3 with
        | none => none
        | some (sec, s4) => some (h ++ ':' :: m ++ ':' :: sec, s4)
      | _ => none

/-- `(\d{1,2}\/\d{1,2}\/\d{2,4})` at the start of `s`; the year run takes up
to four digits greedily and needs at least two. -/
def dateMatch (s : Str) : Option (Str × Str) :=
  match digits12Then '/' s with
  | none => none
  | some (m, s1) =>
    match digits12Then '/' s1 with
    | none => none
    | some (d, s2) =>
      let r := s2.takeWhile isDigitCh
      if r.length < 2 then none
      else
        let y := r.take 4
        some (m ++ '/' :: d ++ '/' :: y, s2.drop y.length)

/-- `\s*(time)\s+(date)` just after a date label; the whitespace runs cannot
backtrack usefully because both captures start with a digit. -/
def timeDateAt (s : Str) : Option (Str × Str) :=
  match timeMatch (s.dropWhile isWs) with
  | none => none
  | some (t, s1) =>
    let r := s1.takeWhile isWs
    if r.isEmpty then none
    else
      match dateMatch (s1.drop r.length) with
      | none => none
      | some (d, _) => some (t, d)

/-- First match of the book-date regex (src/server.js:285) over the block. -/
def bookDateScan : Str → Option (Str × Str)
  | [] => none
  | c :: rest =>
    if litPre bookDateMarker (c :: rest) then
      match timeDateAt ((c :: rest).drop bookDateMarker.length) with
      | some td => some td
      | none => bookDateScan rest
    else bookDateScan rest

/-- `bookDate` of a block (src/server.js:285-286, rosterTools.mjs:98-102):
`date + " " + time`, or `"Unknown"` when the regex does not match. -/
def computeBookDate (block : Str) : Str :=
  match bookDateScan block with
  | some (t, d) => d ++ ' ' :: t
  | none => "Unknown".data

/-- Result of the release-date alternation
`(No Rel Date|(\d{1,2}:\d{2}:\d{2})\s+(\d{1,2}\/\d{1,2}\/\d{2,4}))`. -/
inductive RelParse where
  | sentinel : RelParse
  | timedate : Str → Str → RelParse
  deriving DecidableEq, Repr

/-- Attempt of the release-date alternation after a `Rel Date:` occurrence;
both alternatives start with a non-whitespace character, so the greedy `\s*`
is a plain skip. -/
def relDateAt (s : Str) : Option RelParse :=
  let t := s.dropWhile isWs
  if litPre noRelDateLit t then some RelParse.sentinel
  else
    match timeMatch t with
    | none => none
    | some (tm, s1) =>
      let r := s1.takeWhile isWs
      if r.isEmpty then none
      else
        match dateMatch (s1.drop r.length) with
        | none => none
        | some (d, _) => some (RelParse.timedate tm d)

/-- First match of the release-date regex (src/server.js:288,
rosterTools.mjs:103) over the block. -/
def relDateScan : Str → Option RelParse
  | [] => none
  | c :: rest =>
    if litPre relDateMarker (c :: rest) then
      match relDateAt ((c :: rest).drop relDateMarker.length) with
      | some rp => some rp
      | none => relDateScan rest
    else relDateScan rest

/-- `releaseDate` of a block (src/server.js:288-292, rosterTools.mjs:103-111):
defaults to `"Not Released"`; a matched time-date pair yields
`date + " " + time`; the `No Rel Date` sentinel keeps the default. -/
def computeRelDate (block : Str) : Str :=
  match relDateScan block with
  | some (RelParse.timedate tm d) => d ++ ' ' :: tm
  | some RelParse.sentinel => "Not Released".data
  | none => "Not Released".data

/-! ### Charge extraction -/

/-- Skip test of the server charge loop (src/server.js:315-316). -/
def srvSkipLine (t : Str) : Bool :=
  containsSub nameNumMarker t || containsSub bookDateMarker t ||
  containsSub relDateMarker t || containsSub ("Page ".data) t ||
  containsSub ("rpjlciol".data) t || containsSub ("Current Inmate".data) t

/-- Class `[\d\w.()]` (the `\d` is redundant inside `\w`). -/
def statClassCh (c : Char) : Bool :=
  isWordCh c || c = '.' || c = '(' || c = ')'

/-- Class `[A-Za-z\s,'-]`. -/
def offClassCh (c : Char) : Bool :=
  isAlphaCh c || isWs c || c = ',' || c = '\'' || c = '-'

/-- Alternation `(DIST|SUPR|MUNI|DOC)` as a prefix step; the four literals
are mutually non-prefix, so at most one alternative matches. -/
def courtAlt4 (s : Str) : Option Str :=
  if litPre ("DIST".data) s then some (s.drop 4)
  else if litPre ("SUPR".data) s then some (s.drop 4)
  else if litPre ("MUNI".data) s then some (s.drop 4)
  else if litPre ("DOC".data) s then some (s.drop 3)
  else none

/-- `[A-Z]+[A-Z]{2}$`: the rest of the line is all uppercase, length ≥ 3. -/
def upperTail (s : Str) : Bool :=
  decide (3 ≤ s.length) && s.all isUpperCh

/-- Lazy `([A-Za-z\s,'-]+?)` followed by the court alternation and the
uppercase tail anchored at the end of the line; the capture grows one
character at a time until the continuation matches. -/
def srvOffLazy (acc : Str) : Str → Option Str
  | [] => none
  | c :: rest =>
    if offClassCh c then
      match courtAlt4 rest with
      | some s2 => if upperTail s2 then some ((c :: acc).reverse) else srvOffLazy (c :: acc) rest
      | none => srvOffLazy (c :: acc) rest
    else none

/-- Greedy backtracking for `^[\d\w.()]+`: try the longest statute run
first, then shorter ones, at least one character. -/
def srvChargeDown (t : Str) : Nat → Option Str
  | 0 => none
  | a + 1 =>
    match srvOffLazy [] (t.drop (a + 1)) with
    | some off => some off
    | none => srvChargeDown t a

/-- `/^[\d\w.()]+([A-Za-z\s,'-]+?)(DIST|SUPR|MUNI|DOC)[A-Z]+[A-Z]{2}$/`
(src/server.js:325), anchored at both ends of the trimmed line. -/
def srvChargeMatch (t : Str) : Option Str :=
  srvChargeDown t (t.takeWhile statClassCh).length

/-- One server charge line: regex match, trim, and the guard
`offense && offense.length > 1` (src/server.js:327-332). -/
def srvChargeOf (t : Str) : Option Str :=
  match srvChargeMatch t with
  | none => none
  | some off =>
    let o := strTrim off
    if 1 < o.length then some o else none

/-- Charge-collection loop of `extractBookings` (src/server.js:298-334),
including the unconditional stop on a line starting with `Booking #:`. -/
def srvChargesLoop : List Str → Bool → List Str
  | [], _ => []
  | line :: rest, inC =>
    let t := strTrim line
    if containsSub statuteLit t && containsSub offenseLit t && containsSub courtLit t then
      srvChargesLoop rest true
    else if litPre bookingMarker t then []
    else if inC && !t.isEmpty then
      if srvSkipLine t then srvChargesLoop rest inC
      else
        match srvChargeOf t with
        | some off => off :: srvChargesLoop rest inC
        | none => srvChargesLoop rest inC
    else srvChargesLoop rest inC

/-- Charges of one server block, deduplicated (src/server.js:294-341). -/
def srvCharges (block : Str) : List Str :=
  dedupFirst (srvChargesLoop (splitLines block) false)

/-- `^--\s*\d+\s*of\s*\d+\s*--` page-footer test (rosterTools.mjs:122). -/
def dashOfPat (t : Str) : Bool :=
  match t with
  | '-' :: '-' :: s0 =>
    let s1 := s0.dropWhile isWs
    let d1 := s1.takeWhile isDigitCh
    if d1.isEmpty then false
    else
      let s2 := (s1.drop d1.length).dropWhile isWs
      if litPre ("of".data) s2 then
        let s3 := (s2.drop 2).dropWhile isWs
        let d2 := s3.takeWhile isDigitCh
        if d2.isEmpty then false
        else litPre ("--".data) ((s3.drop d2.length).dropWhile isWs)
      else false
  | _ => false

/-- `^Page\s+\d+` under the `i` flag (rosterTools.mjs:122). -/
def pagePat (t : Str) : Bool :=
  if ciPre ("Page".data) t then
    let s1 := t.drop 4
    let w := s1.takeWhile isWs
    !w.isEmpty && !((s1.drop w.length).takeWhile isDigitCh).isEmpty
  else false

/-- Break test of the tools charge loop (rosterTools.mjs:122-124). -/
def toolsBreakLine (t : Str) : Bool :=
  litPre bookingMarker t || dashOfPat t || pagePat t ||
  ciPre ("Current Inmate".data) t || litPre ("rpjlciol".data) t

/-- `^\d+[A-Z.]+`: a digit run then at least one of `[A-Z.]` right after it
(a shorter digit choice leaves a digit where `[A-Z.]` is required). -/
def gateA (t : Str) : Bool :=
  let d := t.takeWhile isDigitCh
  !d.isEmpty &&
    (match t.drop d.length with
     | c :: _ => isUpperCh c || c = '.'
     | [] => false)

/-- `^[A-Z]+\.\d+`: an uppercase run, a period right after it, a digit. -/
def gateB (t : Str) : Bool :=
  let u := t.takeWhile isUpperCh
  !u.isEmpty &&
    (match t.drop u.length with
     | '.' :: c :: _ => isDigitCh c
     | _ => false)

/-- Alternation `(DIST|SUPR|MUNI)` as a prefix test. -/
def courtAlt3 (s : Str) : Bool :=
  litPre ("DIST".data) s || litPre ("SUPR".data) s || litPre ("MUNI".data) s

/-- `\s+(DIST|SUPR|MUNI)`: at least one whitespace character, then (after
the full run, since the court words start with a letter) a court literal. -/
def courtCont (s : Str) : Bool :=
  let w := s.takeWhile isWs
  !w.isEmpty && courtAlt3 (s.drop w.length)

/-- Lazy `(.+?)` (`.` matches anything but a newline) with the court
continuation checked after each consumed character. -/
def toolsOffLazy (acc : Str) : Str → Option Str
  | [] => none
  | c :: rest =>
    if c = '\n' then none
    else if courtCont rest then some ((c :: acc).reverse)
    else toolsOffLazy (c :: acc) rest

/-- Greedy backtracking over the `\s+` before the lazy capture. -/
def toolsOffDown (s : Str) : Nat → Option Str
  | 0 => none
  | j + 1 =>
    match toolsOffLazy [] (s.drop (j + 1)) with
    | some off => some off
    | none => toolsOffDown s j

/-- `/^\S+\s+(.+?)\s+(DIST|SUPR|MUNI)/` (rosterTools.mjs:126); the leading
`\S+` is the maximal non-whitespace run, forced by the following `\s+`. -/
def toolsOffMatch (t : Str) : Option Str :=
  let w := t.takeWhile (fun c => !(isWs c))
  if w.isEmpty then none
  else
    let s := t.drop w.length
    toolsOffDown s (s.takeWhile isWs).length

/-- One tools charge line: the two statute gates, then the offense match
(rosterTools.mjs:125-130); the capture is pushed trimmed, with no length
guard. -/
def toolsChargeOf (t : Str) : Option Str :=
  if gateA t || gateB t then
    match toolsOffMatch t with
    | none => none
    | some off => some (strTrim off)
  else none

/-- Charge-collection loop of `parseRosterToBookings`
(rosterTools.mjs:114-132). -/
def toolsChargesLoop : List Str → Bool → List Str
  | [], _ => []
  | line :: rest, inC =>
    let t := strTrim line
    if containsSub statuteLit t && containsSub offenseLit t then
      toolsChargesLoop rest true
    else if inC && !t.isEmpty then
      if toolsBreakLine t then []
      else
        match toolsChargeOf t with
        | some off => off :: toolsChargesLoop rest inC
        | none => toolsChargesLoop rest inC
    else toolsChargesLoop rest inC

/-- Charges of one tools block, deduplicated (rosterTools.mjs:112-133). -/
def toolsCharges (block : Str) : List Str :=
  dedupFirst (toolsChargesLoop (splitLines block) false)

/-! ### Building the record maps -/

/-- `BookingRecord` as assembled by `extractBookings` (src/server.js:336-342). -/
structure Booking where
  id : Str
  name : Str
  bookDate : Str
  releaseDate : Str
  charges : List Str
  deriving DecidableEq, Repr

/-- One block of `extractBookings` (src/server.js:271-343): the block must
contain the record marker and yield an id; every other field degrades to a
sentinel. -/
def buildBooking (block : Str) : Option Booking :=
  if !containsSub bookingMarker block then none
  else
    match extractId block with
    | none => none
    | some i =>
      some { id := i, name := computeName block, bookDate := computeBookDate block,
             releaseDate := computeRelDate block, charges := srvCharges block }

/-- `extractBookings` (src/server.js:267-345). -/
def extractBookings (text : Str) : AList Booking :=
  ((splitBlocks text).filterMap buildBooking).foldl (fun m b => mapSet m b.id b) []

/-- Record as assembled by `parseRosterToBookings`
(rosterTools.mjs:134-141), with the 500-character raw-text excerpt. -/
structure TBooking where
  bookingNumber : Str
  name : Str
  bookDate : Str
  releaseDate : Str
  charges : List Str
  rawText : Str
  deriving DecidableEq, Repr

/-- One block of `parseRosterToBookings` (rosterTools.mjs:84-142). -/
def buildTBooking (block : Str) : Option TBooking :=
  if !containsSub bookingMarker block then none
  else
    match extractId block with
    | none => none
    | some num =>
      some { bookingNumber := num, name := computeNameT block,
             bookDate := computeBookDate block, releaseDate := computeRelDate block,
             charges := toolsCharges block, rawText := block.take 500 }

/-- `parseRosterToBookings` (rosterTools.mjs:81-144). -/
def parseRosterToBookings (text : Str) : AList TBooking :=
  ((splitBlocks text).filterMap buildTBooking).foldl
    (fun m b => mapSet m b.bookingNumber b) []

/-! ### Release-statistics feed (`fetchReleaseStats`, src/server.js:27-64) -/

/-- `\d{2}\/\d{2}\/\d{2}` at the start of `s` (fixed width). -/
def relDate2 (s : Str) : Option (Str × Str) :=
  match s with
  | a :: b :: '/' :: c :: d :: '/' :: e :: f :: rest =>
    if isDigitCh a && isDigitCh b && isDigitCh c && isDigitCh d &&
       isDigitCh e && isDigitCh f
    then some ([a, b, '/', c, d, '/', e, f], rest) else none
  | _ => none

/-- `\d{2}:\d{2}:\d{2}` at the start of `s` (fixed width). -/
def relTime2 (s : Str) : Option (Str × Str) :=
  match s with
  | a :: b :: ':' :: c :: d :: ':' :: e :: f :: rest =>
    if isDigitCh a && isDigitCh b && isDigitCh c && isDigitCh d &&
       isDigitCh e && isDigitCh f
    then some ([a, b, ':', c, d, ':', e, f], rest) else none
  | _ => none

/-- Class `[A-Z\s,.'"-]` of the release-line name (no `i` flag). -/
def relNameCh (c : Char) : Bool :=
  isUpperCh c || isWs c || c = ',' || c = '.' || c = '\'' || c = '"' || c = '-'

/-- `\s+\.\s*`: a whitespace run (at least one character), the separating
period right after it, then a whitespace skip. -/
def sepDot (s : Str) : Option Str :=
  let w := s.takeWhile isWs
  if w.isEmpty then none
  else
    match s.drop w.length with
    | '.' :: rest => some (rest.dropWhile isWs)
    | _ => none

/-- `(\d+\s*d\s*\d+\s*h\s*\d+\s*m)`: returns the matched substring and the
rest; every greedy run is forced by the literal that follows it. -/
def servedMatch (s : Str) : Option (Str × Str) :=
  let d1 := s.takeWhile isDigitCh
  if d1.isEmpty then none else
  let s1 := s.drop d1.length
  let w1 := s1.takeWhile isWs
  match s1.drop w1.length with
  | 'd' :: s2 =>
    let w2 := s2.takeWhile isWs
    let d2 := (s2.drop w2.length).takeWhile isDigitCh
    if d2.isEmpty then none else
    let s3 := (s2.drop w2.length).drop d2.length
    let w3 := s3.takeWhile isWs
    match s3.drop w3.length with
    | 'h' :: s4 =>
      let w4 := s4.takeWhile isWs
      let d3 := (s4.drop w4.length).takeWhile isDigitCh
      if d3.isEmpty then none else
      let s5 := (s4.drop w4.length).drop d3.length
      let w5 := s5.takeWhile isWs
      match s5.drop w5.length with
      | 'm' :: s6 =>
        some (d1 ++ w1 ++ 'd' :: w2 ++ d2 ++ w3 ++ 'h' :: w4 ++ d3 ++ w5 ++ ['m'], s6)
      | _ => none
    | _ => none
  | _ => none

/-- `\s+\$?([\d,]+\.\d{2})`: whitespace, optional dollar sign, then the
digits-and-commas run, a period and exactly two digits. -/
def bailMatch (s : Str) : Option Str :=
  let w := s.takeWhile isWs
  if w.isEmpty then none else
  let s1 := s.drop w.length
  let s2 := match s1 with
    | '$' :: r => r
    | _ => s1
  let run := s2.takeWhile (fun c => isDigitCh c || c = ',')
  if run.isEmpty then none else
  match s2.drop run.length with
  | '.' :: a :: b :: _ =>
    if isDigitCh a && isDigitCh b then some (run ++ '.' :: [a, b]) else none
  | _ => none

/-- `\s+` then the served capture then the bail: the continuation shared by
the two greedy widths of `R[A-Z]{2,3}`. -/
def afterCode (s : Str) : Option (Str × Str) :=
  let w := s.takeWhile isWs
  if w.isEmpty then none else
  match servedMatch (s.drop w.length) with
  | none => none
  | some (served, s1) =>
    match bailMatch s1 with
    | none => none
    | some bail => some (served, bail)

/-- `(R[A-Z]{2,3})` with its greedy quantifier: three letters tried before
two, each followed by the rest of the pattern. -/
def rCodeTail (s : Str) : Option (Str × Str × Str) :=
  match s with
  | 'R' :: a :: b :: rest0 =>
    if isUpperCh a && isUpperCh b then
      match rest0 with
      | c :: rest1 =>
        if isUpperCh c then
          match afterCode rest1 with
          | some (sv, bl) => some ('R' :: [a, b, c], sv, bl)
          | none =>
            match afterCode (c :: rest1) with
            | some (sv, bl) => some ('R' :: [a, b], sv, bl)
            | none => none
        else
          match afterCode (c :: rest1) with
          | some (sv, bl) => some ('R' :: [a, b], sv, bl)
          | none => none
      | [] => none
    else none
  | _ => none

/-- The pattern tail after the name: `\s+\.\s*` then the release code. -/
def relTailAt (s : Str) : Option (Str × Str × Str) :=
  match sepDot s with
  | none => none
  | some s1 => rCodeTail s1

/-- Lazy `([A-Z][A-Z\s,.'"-]+?)` with the whole remaining pattern as its
continuation: the capture extends one character at a time until the tail
matches. -/
def relNameLazy (acc : Str) : Str → Option (Str × Str × Str × Str)
  | [] => none
  | c :: rest =>
    if relNameCh c then
      match relTailAt rest with
      | some (code, sv, bl) => some ((c :: acc).reverse, code, sv, bl)
      | none => relNameLazy (c :: acc) rest
    else none

/-- One matched release line's captures. -/
structure RelLine where
  date : Str
  time : Str
  name : Str
  releaseType : Str
  timeServed : Str
  bail : Str
  deriving DecidableEq, Repr

/-- Attempt of the full release-line regex (src/server.js:43) at the
current position. -/
def relLineAt (s : Str) : Option RelLine :=
  match relDate2 s with
  | none => none
  | some (d, s1) =>
    let w1 := s1.takeWhile isWs
    if w1.isEmpty then none else
    match relTime2 (s1.drop w1.length) with
    | none => none
    | some (t, s2) =>
      let w2 := s2.takeWhile isWs
      if w2.isEmpty then none else
      match s2.drop w2.length with
      | c :: rest =>
        if isUpperCh c then
          match relNameLazy [c] rest with
          | some (nm, code, sv, bl) =>
            some { date := d, time := t, name := nm, releaseType := code,
                   timeServed := sv, bail := bl }
          | none => none
        else none
      | [] => none

/-- Leftmost match of the release-line regex over one line. -/
def relLineScan : Str → Option RelLine
  | [] => none
  | c :: rest =>
    match relLineAt (c :: rest) with
    | some r => some r
    | none => relLineScan rest

/-- `ReleaseDetail` as stored in the map (src/server.js:50-55). -/
structure ReleaseDetail where
  releaseDateTime : Str
  releaseType : Str
  timeServed : Str
  bail : Str
  deriving DecidableEq, Repr

/-- Map entry built from one matched line (src/server.js:46-55). -/
def relDetailOf (r : RelLine) : Str × ReleaseDetail :=
  (cleanName r.name,
   { releaseDateTime := r.date ++ ' ' :: r.time, releaseType := r.releaseType,
     timeServed := removeWs r.timeServed, bail := '$' :: r.bail })

/-- The parsing loop of `fetchReleaseStats` (src/server.js:37-58). -/
def parseReleaseText (text : Str) : AList ReleaseDetail :=
  (splitLines text).foldl
    (fun m line =>
      match relLineScan line with
      | some r => mapSet m (relDetailOf r).1 (relDetailOf r).2
      | none => m) []

/-- Outcome of the secondary-source fetch and PDF parse, the two effectful
steps of `fetchReleaseStats` (src/server.js:29-35). -/
inductive FetchOutcome where
  | fetchThrew : FetchOutcome
  | notOk : FetchOutcome
  | parseThrew : FetchOutcome
  | gotText : Str → FetchOutcome

/-- `fetchReleaseStats` (src/server.js:27-64): a non-ok response returns an
empty map, any thrown error is caught and returns an empty map, and
otherwise the text is parsed line by line. -/
def fetchReleaseStats : FetchOutcome → AList ReleaseDetail
  | FetchOutcome.fetchThrew => []
  | FetchOutcome.notOk => []
  | FetchOutcome.parseThrew => []
  | FetchOutcome.gotText text => parseReleaseText text

/-! ### The `/api/run` core (src/server.js:242-486) -/

/-- Entry of the durable pending-release queue (src/server.js:407-411). -/
structure Pending where
  name : Str
  bookingData : Booking
  detectedAt : Str
  deriving DecidableEq, Repr

/-- Entry of the updated-releases output (src/server.js:434-438). -/
structure Updated where
  name : Str
  details : ReleaseDetail
  charges : List Str
  deriving DecidableEq, Repr

/-- `Array.prototype.join` with a separator. -/
def joinSep (sep : Str) : List Str → Str
  | [] => []
  | [x] => x
  | x :: y :: rest => x ++ sep ++ joinSep sep (y :: rest)

/-- `charges.join(", ") || "None listed"`. -/
def chargesText (cs : List Str) : Str :=
  let j := joinSep (", ".data) cs
  if j.isEmpty then "None listed".data else j

/-- `formatBooked` (src/server.js:347-349). -/
def formatBooked (b : Booking) : Str :=
  b.name ++ (" | Booked: ".data) ++ b.bookDate ++ (" | Charges: ".data) ++
    chargesText b.charges

/-- `parseFloat(bail.replace(/[$,]/g, "")) > 0` on the `$d…d.dd` strings the
pipeline constructs: positive exactly when some digit is non-zero. -/
def bailPositive (bail : Str) : Bool :=
  (bail.filter (fun c => decide (c ≠ '$') && decide (c ≠ ','))).any
    (fun c => isDigitCh c && decide (c ≠ '0'))

/-- Result of `formatReleased`. -/
structure ReleasedFmt where
  text : Str
  hasPendingDetails : Bool
  deriving DecidableEq, Repr

/-- `formatReleased` (src/server.js:351-381). -/
def formatReleased (b : Booking) (stats : AList ReleaseDetail)
    (isPending : Bool) : ReleasedFmt :=
  match mapGet stats b.name with
  | some ri =>
    let bailText :=
      if bailPositive ri.bail then (" | Bail Posted: ".data) ++ ri.bail else []
    { text := b.name ++ (" | Released: ".data) ++ ri.releaseDateTime ++
        (" | Time served: ".data) ++ ri.timeServed ++ bailText ++
        (" (".data) ++ ri.releaseType ++ (")".data) ++
        (" | Charges: ".data) ++ chargesText b.charges,
      hasPendingDetails := false }
  | none =>
    if isPending then
      { text := b.name ++ (" | Released: ".data) ++ b.releaseDate ++
          (" (exact time pending)".data) ++ (" | Charges: ".data) ++
          chargesText b.charges,
        hasPendingDetails := true }
    else
      { text := b.name ++ (" | Released: ".data) ++ b.releaseDate ++
          (" | Charges: ".data) ++ chargesText b.charges,
        hasPendingDetails := false }

/-- The added loop of the differ (src/server.js:392-396,
rosterTools.mjs:150-154): entries of the current map whose key is absent
from the previous map, in iteration order. -/
def addedOf {V : Type} (cur prev : AList V) : List V :=
  (cur.filter (fun p => !mapHasKey prev p.1)).map Prod.snd

/-- The removed loop of the differ (src/server.js:400-414,
rosterTools.mjs:155-159): entries of the previous map whose key is absent
from the current map. -/
def removedOf {V : Type} (cur prev : AList V) : List V :=
  (prev.filter (fun p => !mapHasKey cur p.1)).map Prod.snd

/-- `compareRosters` (rosterTools.mjs:145-161). -/
def compareRosters (previousText currentText : Str) : List TBooking × List TBooking :=
  let previousBookings := parseRosterToBookings previousText
  let currentBookings := parseRosterToBookings currentText
  (addedOf currentBookings previousBookings, removedOf currentBookings previousBookings)

/-- One pass of the pending-release reconciliation (src/server.js:430-443):
matched entries are emitted as updates, unmatched entries stay queued, in
queue order. -/
def reconcileLoop (stats : AList ReleaseDetail) :
    List Pending → List Updated × List Pending
  | [] => ([], [])
  | p :: rest =>
    let r := reconcileLoop stats rest
    match mapGet stats p.name with
    | some d =>
      ({ name := p.name, details := d, charges := p.bookingData.charges } :: r.1, r.2)
    | none => (r.1, p :: r.2)

/-- The 80-character separator line of the change log. -/
def sepLine : Str := List.replicate 80 '='

/-- The run's change-log entry (src/server.js:452-463): built and appended
on every run, including unchanged ones. -/
def runLogEntry (isFirstRun hasChanged : Bool) (ts : Str)
    (addedLines removedLines : List Str) : Str :=
  ('\n' :: sepLine) ++ '\n' ::
  (if isFirstRun then ("Initial capture".data)
   else if hasChanged then ("Change detected".data) else ("No change".data)) ++
  (" at: ".data) ++ ts ++ '\n' :: sepLine ++ '\n' ::
  (if isFirstRun then ("Initial roster state captured.\n".data)
   else if hasChanged then
     ("BOOKED (".data) ++ natToStr addedLines.length ++ ("):\n".data) ++
     joinSep ("\n".data) (addedLines.map (fun l => ("  + ".data) ++ l)) ++
     ("\n\nRELEASED (".data) ++ natToStr removedLines.length ++ ("):\n".data) ++
     joinSep ("\n".data) (removedLines.map (fun l => ("  - ".data) ++ l)) ++ ("\n".data)
   else ("No changes detected.\n".data))

/-- The separate release-details log entry (src/server.js:468-486),
appended only when some pending release was resolved. -/
def updateLogEntry (ts : Str) (upd : List Updated) : Str :=
  ('\n' :: sepLine) ++ ("\nRelease details update at: ".data) ++ ts ++
  '\n' :: sepLine ++ ("\nUPDATED RELEASE INFORMATION (".data) ++
  natToStr upd.length ++ ("):\n".data) ++
  joinSep ("\n".data) (upd.map (fun r =>
    let bailText :=
      if bailPositive r.details.bail then (" | Bail Posted: ".data) ++ r.details.bail
      else []
    ("  ✓ ".data) ++ r.name ++ (" | Released: ".data) ++ r.details.releaseDateTime ++
    (" | Time served: ".data) ++ r.details.timeServed ++ bailText ++
    (" (".data) ++ r.details.releaseType ++ (")".data) ++
    (" | Charges: ".data) ++ chargesText r.charges)) ++ ("\n".data)

/-- Observable result of one run of the `/api/run` core. -/
structure RunResult where
  hasChanged : Bool
  isFirstRun : Bool
  addedLines : List Str
  removedLines : List Str
  updatedReleases : List Updated
  stillPending : List Pending
  savedHash : Str
  savedText : Str
  logEntries : List Str
  deriving DecidableEq, Repr

/-- The changed-roster branch of the run (src/server.js:388-421) starting
from the two extracted maps, followed by the reconciliation, state save and
log append (src/server.js:426-486). -/
def serverChangedBody (curB prevB : AList Booking) (stats : AList ReleaseDetail)
    (pending0 : List Pending) (ts hash text : Str) : RunResult :=
  let addedLines0 := (addedOf curB prevB).map formatBooked
  let remB := removedOf curB prevB
  let removedLines0 := remB.map (fun b => (formatReleased b stats true).text)
  let newPending :=
    (remB.filter (fun b => (formatReleased b stats true).hasPendingDetails)).map
      (fun b => { name := b.name, bookingData := b, detectedAt := ts : Pending })
  let pending1 := pending0 ++ newPending
  let addedLines := addedLines0.take 30
  let removedLines := removedLines0.take 30
  let r := reconcileLoop stats pending1
  let entry := runLogEntry false true ts addedLines removedLines
  { hasChanged := true, isFirstRun := false, addedLines := addedLines,
    removedLines := removedLines, updatedReleases := r.1, stillPending := r.2,
    savedHash := hash, savedText := text,
    logEntries := entry :: (if r.1.isEmpty then [] else [updateLogEntry ts r.1]) }

/-- The unchanged branch (`hasChanged` false): no diff work, but the
reconciliation, state save and log append still run. -/
def serverUnchangedBody (stats : AList ReleaseDetail) (pending0 : List Pending)
    (ts hash text : Str) : RunResult :=
  let r := reconcileLoop stats pending0
  let entry := runLogEntry false false ts [] []
  { hasChanged := false, isFirstRun := false, addedLines := [], removedLines := [],
    updatedReleases := r.1, stillPending := r.2, savedHash := hash, savedText := text,
    logEntries := entry :: (if r.1.isEmpty then [] else [updateLogEntry ts r.1]) }

/-- The first-run branch (no stored hash or roster). -/
def serverFirstRunBody (stats : AList ReleaseDetail) (pending0 : List Pending)
    (ts hash text : Str) : RunResult :=
  let r := reconcileLoop stats pending0
  let entry := runLogEntry true false ts [] []
  { hasChanged := false, isFirstRun := true, addedLines := [], removedLines := [],
    updatedReleases := r.1, stillPending := r.2, savedHash := hash, savedText := text,
    logEntries := entry :: (if r.1.isEmpty then [] else [updateLogEntry ts r.1]) }

/-- Pure model of the `/api/run` core (src/server.js:242-486).  The stored
hash and roster text stand for the state files; the fingerprint function is
md5 in the source and is a parameter here. -/
def serverRun (fingerprint : Str → Str) (prevHash prevText : Option Str)
    (pending0 : List Pending) (stats : AList ReleaseDetail)
    (text ts : Str) : RunResult :=
  let currentHash := fingerprint text
  match prevHash, prevText with
  | some ph, some pt =>
    if currentHash ≠ ph then
      serverChangedBody (extractBookings text) (extractBookings pt) stats pending0
        ts currentHash text
    else serverUnchangedBody stats pending0 ts currentHash text
  | _, _ => serverFirstRunBody stats pending0 ts currentHash text

/-! ### The workflow steps (rosterTools.mjs:1093-1330) -/

/-- Output of `compareRosterStep` (rosterTools.mjs:1103-1114), restricted
to the fields the claims are about. -/
structure StepOut where
  hasChanged : Bool
  isFirstRun : Bool
  addedLines : List Str
  removedLines : List Str
  addedCount : Nat
  removedCount : Nat
  deriving DecidableEq, Repr

/-- `MAX_LINES_TO_PASS` (rosterTools.mjs:1093). -/
def MAX_LINES_TO_PASS : Nat := 30

/-- The non-empty lines of a text (rosterTools.mjs:1161-1162). -/
def nonEmptyLines (text : Str) : List Str :=
  (splitLines text).filter (fun l => !(strTrim l).isEmpty)

/-- The line-level set difference of `compareRosterStep`
(rosterTools.mjs:1163-1166): lines of `cur` absent from `prev`. -/
def lineDiff (cur prev : Str) : List Str :=
  (nonEmptyLines cur).filter (fun l => !(decide (l ∈ nonEmptyLines prev)))

/-- `compareRosterStep` (rosterTools.mjs:1115-1183) as a pure function of
the current text, the stored hash and text, and the fingerprint. -/
def compareRosterStep (fingerprint : Str → Str) (prevHash prevText : Option Str)
    (currentText : Str) : StepOut :=
  let currentHash := fingerprint currentText
  match prevHash, prevText with
  | some ph, some pt =>
    if currentHash ≠ ph then
      { hasChanged := true, isFirstRun := false,
        addedLines := (lineDiff currentText pt).take MAX_LINES_TO_PASS,
        removedLines := (lineDiff pt currentText).take MAX_LINES_TO_PASS,
        addedCount := (lineDiff currentText pt).length,
        removedCount := (lineDiff pt currentText).length }
    else
      { hasChanged := false, isFirstRun := false, addedLines := [],
        removedLines := [], addedCount := 0, removedCount := 0 }
  | _, _ =>
      { hasChanged := false, isFirstRun := true, addedLines := [],
        removedLines := [], addedCount := 0, removedCount := 0 }

/-- `${lines || "  (none)"}` of the history entry. -/
def orNoneLit (s : Str) : Str := if s.isEmpty then ("  (none)".data) else s

/-- The log entries appended by `saveHistoryStep` (rosterTools.mjs:1295-1308):
nothing is appended when the run is neither changed nor first. -/
def toolsHistoryEntries (o : StepOut) (ts : Str) : List Str :=
  if o.hasChanged || o.isFirstRun then
    [('\n' :: sepLine) ++ '\n' ::
     (if o.isFirstRun then ("Initial capture".data) else ("Change detected".data)) ++
     (" at: ".data) ++ ts ++ '\n' :: sepLine ++ '\n' ::
     (if o.isFirstRun then ("Initial roster state captured.".data)
      else
        ("Added lines (".data) ++ natToStr o.addedCount ++ (" total, showing ".data) ++
        natToStr o.addedLines.length ++ ("):\n".data) ++
        orNoneLit (joinSep ("\n".data) (o.addedLines.map (fun l => ("  + ".data) ++ l))) ++
        ("\n\nRemoved lines (".data) ++ natToStr o.removedCount ++
        (" total, showing ".data) ++ natToStr o.removedLines.length ++ ("):\n".data) ++
        orNoneLit (joinSep ("\n".data) (o.removedLines.map (fun l => ("  - ".data) ++ l)))) ++
     ("\n".data)]
  else []

/-! ### Concrete scenario data used by the witnesses -/

/-- Previous mapping of the C1 scenario: Jane Doe under id A1. -/
def janePrev : Booking :=
  { id := "A1".data, name := "Jane Doe".data, bookDate := "1/2/25 9:00:00".data,
    releaseDate := "Not Released".data, charges := [] }

/-- Current-mapping copy of Jane Doe with different charges, to exercise the
field-insensitivity of the differ. -/
def janeCur : Booking :=
  { id := "A1".data, name := "Jane Doe".data, bookDate := "1/2/25 9:00:00".data,
    releaseDate := "Not Released".data, charges := ["Theft".data] }

/-- Newly appearing record of the C1 scenario: John Roe under id B2. -/
def johnCur : Booking :=
  { id := "B2".data, name := "John Roe".data, bookDate := "1/3/25 8:00:00".data,
    releaseDate := "Not Released".data, charges := [] }

/-- The C1 concrete scenario's previous mapping `{A1: Jane Doe}`. -/
def prevEx : AList Booking := [("A1".data, janePrev)]

/-- The C1 concrete scenario's current mapping `{A1: Jane Doe, B2: John Roe}`. -/
def curEx : AList Booking := [("A1".data, janeCur), ("B2".data, johnCur)]

/-- The update emitted for a queued pending release whose name the current
release-detail map resolves (the body of src/server.js:431-438). -/
def updOf (stats : AList ReleaseDetail) (p : Pending) : Option Updated :=
  (mapGet stats p.name).map
    (fun d => { name := p.name, details := d, charges := p.bookingData.charges })

/-- Record block whose release-date line is unparsable. -/
def c4Block : Str :=
  ("Booking #: 99 Name: DOE, JANE Name Number: 1\nBook Date: 9:00:00 1/2/25\nRel Date: garbage\n").data

/-- Record block carrying the no-release-date sentinel and no book date. -/
def c4SentinelBlock : Str :=
  ("Booking #: 98\nRel Date: No Rel Date\n").data

/-- Record block with a parsable release date. -/
def c4TimeBlock : Str :=
  ("Booking #: 97\nRel Date: 10:00:00 1/2/25\n").data

/-- Record block whose charges section matches no charge pattern. -/
def c7Block : Str :=
  ("Booking #: 8\nName: ROE, JOHN Name Number: 2\nStatute Offense Court\n???\n").data

/-- Record block with a booking id but an unmatchable name field. -/
def c10Block : Str :=
  ("Booking #: 7\nName: 123 Name Number: 5\n").data

/-- Sam Lee's roster record of the C2 scenario. -/
def c2Sam : Booking :=
  { id := "C3".data, name := "Sam Lee".data, bookDate := "1/1/25 8:00:00".data,
    releaseDate := "Not Released".data, charges := [] }

/-- Previous mapping of the C2 scenario `{A1: Jane Doe, C3: Sam Lee}`. -/
def c2PrevMap : AList Booking := [("A1".data, janePrev), ("C3".data, c2Sam)]

/-- Current mapping of the C2 scenario `{A1: Jane Doe}`. -/
def c2CurMap : AList Booking := [("A1".data, janePrev)]

/-- Release detail that appears for Sam Lee on the later C2 run. -/
def c2Detail : ReleaseDetail :=
  { releaseDateTime := "10/02/25 08:00:00".data, releaseType := "RPR".data,
    timeServed := "1d2h3m".data, bail := "$0.00".data }

/-- The later run's release-detail map of the C2 scenario. -/
def c2Stats2 : AList ReleaseDetail := [("Sam Lee".data, c2Detail)]

/-- Sam Lee's queued pending release. -/
def c2Pending : Pending :=
  { name := "Sam Lee".data, bookingData := c2Sam, detectedAt := "T1".data }

/-- A current mapping with 31 distinct bookings and a shared name, used
against the 30-entry display cap. -/
def c5Cur : AList Booking :=
  (List.range 31).map (fun n =>
    (natToStr n,
     { id := natToStr n, name := "N".data, bookDate := "Unknown".data,
       releaseDate := "Not Released".data, charges := [] }))

/-- A complete well-formed record block, used to validate the embedding. -/
def exBlock : Str :=
  ("Booking #: 25-001 Name: DOE, JANE Name Number: 123\nBook Date: 9:30:00 1/2/2025\nRel Date: No Rel Date\nStatute Offense Court\n3A Assault DIST\n").data

/-- A release-feed line matching the five-field release pattern, used to
validate the embedding. -/
def exRelLine : Str :=
  ("10/01/25 14:30:00 DOE, JANE . RPR 1d 2h 3m $1,500.00").data

/-! ### Helper lemmas -/

theorem mapHasKey_iff {V : Type} (m : AList V) (k : Str) :
    mapHasKey m k = true ↔ k ∈ m.map Prod.fst := by
  rw [mapHasKey, List.any_eq_true, List.mem_map]
  constructor
  · rintro ⟨p, hp, h⟩
    exact ⟨p, hp, of_decide_eq_true h⟩
  · rintro ⟨p, hp, h⟩
    exact ⟨p, hp, decide_eq_true h⟩

theorem mapHasKey_eq_false {V : Type} (m : AList V) (k : Str) :
    mapHasKey m k = false ↔ k ∉ m.map Prod.fst := by
  constructor
  · intro h hmem
    rw [(mapHasKey_iff m k).2 hmem] at h
    cases h
  · intro h
    cases hb : mapHasKey m k with
    | false => rfl
    | true => exact absurd ((mapHasKey_iff m k).1 hb) h

theorem mapGet_mapSet {V : Type} (m : AList V) (k k' : Str) (v : V) :
    mapGet (mapSet m k v) k' = if k = k' then some v else mapGet m k' := by
  induction m with
  | nil => simp [mapSet, mapGet]
  | cons p rest ih =>
    obtain ⟨a, w⟩ := p
    simp only [mapSet]
    by_cases hak : a = k
    · rw [if_pos hak]
      subst hak
      by_cases h' : a = k' <;> simp [mapGet, h']
    · rw [if_neg hak]
      by_cases h1 : a = k'
      · have h2 : ¬ k = k' := fun he => hak (h1.trans he.symm)
        simp [mapGet, h1, h2]
      · simp [mapGet, h1, ih]

theorem lastSome?_isSome {α : Type} (rest : List α) :
    ∀ y : α, (lastSome? (y :: rest)).isSome = true := by
  induction rest with
  | nil => intro y; rfl
  | cons z rest ih => intro y; simpa [lastSome?] using ih z

theorem lastSome?_cons {α : Type} (x : α) (l : List α) :
    lastSome? (x :: l) = match lastSome? l with
      | some y => some y
      | none => some x := by
  cases l with
  | nil => rfl
  | cons y rest =>
    obtain ⟨z, hz⟩ := Option.isSome_iff_exists.mp (lastSome?_isSome rest y)
    simp [lastSome?, hz]

theorem mapGet_foldl_set {V : Type} (key : V → Str) (rs : List V) (m0 : AList V)
    (k : Str) :
    mapGet (rs.foldl (fun m r => mapSet m (key r) r) m0) k =
      match lastSome? (rs.filter (fun r => decide (key r = k))) with
      | some r => some r
      | none => mapGet m0 k := by
  induction rs generalizing m0 with
  | nil => rfl
  | cons r rest ih =>
    rw [List.foldl_cons, ih]
    by_cases hk : key r = k
    · rw [List.filter_cons_of_pos (by simpa using hk), lastSome?_cons]
      cases hl : lastSome? (rest.filter (fun r => decide (key r = k))) with
      | some r' => simp
      | none => simp [mapGet_mapSet, hk]
    · rw [List.filter_cons_of_neg (by simpa using hk)]
      cases hl : lastSome? (rest.filter (fun r => decide (key r = k))) with
      | some r' => simp
      | none => simp [mapGet_mapSet, hk]

theorem mem_keys_mapSet {V : Type} (m : AList V) (k : Str) (v : V) (x : Str)
    (h : x ∈ (mapSet m k v).map Prod.fst) : x ∈ m.map Prod.fst ∨ x = k := by
  induction m with
  | nil => simpa [mapSet] using h
  | cons p rest ih =>
    obtain ⟨a, w⟩ := p
    simp only [mapSet] at h
    by_cases hak : a = k
    · rw [if_pos hak] at h
      simp only [List.map_cons, List.mem_cons] at h
      rcases h with h | h
      · exact Or.inr h
      · exact Or.inl (by rw [List.map_cons]; exact List.mem_cons_of_mem _ h)
    · rw [if_neg hak] at h
      simp only [List.map_cons, List.mem_cons] at h
      rcases h with h | h
      · exact Or.inl (by rw [List.map_cons, h]; exact List.mem_cons_self _ _)
      · rcases ih h with h' | h'
        · exact Or.inl (by rw [List.map_cons]; exact List.mem_cons_of_mem _ h')
        · exact Or.inr h'

theorem nodup_keys_mapSet {V : Type} (m : AList V) (k : Str) (v : V)
    (h : (m.map Prod.fst).Nodup) : ((mapSet m k v).map Prod.fst).Nodup := by
  induction m with
  | nil => simp [mapSet]
  | cons p rest ih =>
    obtain ⟨a, w⟩ := p
    simp only [List.map_cons, List.nodup_cons] at h
    obtain ⟨hna, hrest⟩ := h
    simp only [mapSet]
    by_cases hak : a = k
    · rw [if_pos hak]
      subst hak
      simp only [List.map_cons, List.nodup_cons]
      exact ⟨hna, hrest⟩
    · rw [if_neg hak]
      simp only [List.map_cons, List.nodup_cons]
      refine ⟨?_, ih hrest⟩
      intro hmem
      rcases mem_keys_mapSet rest k v a hmem with h' | h'
      · exact hna h'
      · exact hak h'

theorem nodup_keys_foldl_set {V : Type} (key : V → Str) (rs : List V)
    (m0 : AList V) (h : (m0.map Prod.fst).Nodup) :
    ((rs.foldl (fun m r => mapSet m (key r) r) m0).map Prod.fst).Nodup := by
  induction rs generalizing m0 with
  | nil => exact h
  | cons r rest ih => exact ih _ (nodup_keys_mapSet m0 (key r) r h)

theorem mapGet_isSome_of_mem {V : Type} (key : V → Str) (rs : List V) (r : V)
    (hr : r ∈ rs) :
    (mapGet (rs.foldl (fun m x => mapSet m (key x) x) []) (key r)).isSome = true := by
  rw [mapGet_foldl_set key]
  have hne : rs.filter (fun x => decide (key x = key r)) ≠ [] := by
    intro hemp
    have hmem : r ∈ rs.filter (fun x => decide (key x = key r)) := by
      rw [List.mem_filter]
      exact ⟨hr, by simp⟩
    rw [hemp] at hmem
    cases hmem
  cases hfl : rs.filter (fun x => decide (key x = key r)) with
  | nil => exact absurd hfl hne
  | cons y ys =>
    obtain ⟨z, hz⟩ := Option.isSome_iff_exists.mp (lastSome?_isSome ys y)
    rw [hz]
    rfl

theorem extractId_contains (block i : Str) (h : extractId block = some i) :
    containsSub bookingMarker block = true := by
  induction block with
  | nil => simp [extractId] at h
  | cons c rest ih =>
    rw [extractId] at h
    by_cases hp : litPre bookingMarker (c :: rest) = true
    · simp [containsSub, hp]
    · rw [if_neg hp] at h
      simp [containsSub, ih h]

theorem buildBooking_eq (block i : Str) (h : extractId block = some i) :
    buildBooking block = some ⟨i, computeName block, computeBookDate block,
      computeRelDate block, srvCharges block⟩ := by
  rw [buildBooking]
  rw [if_neg (by simp [extractId_contains block i h])]
  rw [h]

theorem buildTBooking_eq (block i : Str) (h : extractId block = some i) :
    buildTBooking block = some ⟨i, computeNameT block, computeBookDate block,
      computeRelDate block, toolsCharges block, block.take 500⟩ := by
  rw [buildTBooking]
  rw [if_neg (by simp [extractId_contains block i h])]
  rw [h]

theorem toolsChargesLoop_nil (lines : List Str)
    (h : ∀ l ∈ lines, toolsChargeOf (strTrim l) = none) :
    ∀ inC, toolsChargesLoop lines inC = [] := by
  induction lines with
  | nil => intro inC; rfl
  | cons line rest ih =>
    intro inC
    have hl := h line (List.mem_cons_self _ _)
    have hrest : ∀ l ∈ rest, toolsChargeOf (strTrim l) = none :=
      fun l hm => h l (List.mem_cons_of_mem _ hm)
    simp only [toolsChargesLoop]
    by_cases h1 : (containsSub statuteLit (strTrim line) &&
        containsSub offenseLit (strTrim line)) = true
    · rw [if_pos h1]
      exact ih hrest true
    · rw [if_neg h1]
      by_cases h2 : (inC && !(strTrim line).isEmpty) = true
      · rw [if_pos h2]
        by_cases h3 : toolsBreakLine (strTrim line) = true
        · rw [if_pos h3]
        · rw [if_neg h3, hl]
          exact ih hrest inC
      · rw [if_neg h2]
        exact ih hrest inC

theorem srvChargesLoop_nil (lines : List Str)
    (h : ∀ l ∈ lines, srvChargeOf (strTrim l) = none) :
    ∀ inC, srvChargesLoop lines inC = [] := by
  induction lines with
  | nil => intro inC; rfl
  | cons line rest ih =>
    intro inC
    have hl := h line (List.mem_cons_self _ _)
    have hrest : ∀ l ∈ rest, srvChargeOf (strTrim l) = none :=
      fun l hm => h l (List.mem_cons_of_mem _ hm)
    simp only [srvChargesLoop]
    by_cases h1 : (containsSub statuteLit (strTrim line) &&
        containsSub offenseLit (strTrim line) &&
        containsSub courtLit (strTrim line)) = true
    · rw [if_pos h1]
      exact ih hrest true
    · rw [if_neg h1]
      by_cases h2 : litPre bookingMarker (strTrim line) = true
      · rw [if_pos h2]
      · rw [if_neg h2]
        by_cases h3 : (inC && !(strTrim line).isEmpty) = true
        · rw [if_pos h3]
          by_cases h4 : srvSkipLine (strTrim line) = true
          · rw [if_pos h4]
            exact ih hrest inC
          · rw [if_neg h4, hl]
            exact ih hrest inC
        · rw [if_neg h3]
          exact ih hrest inC

theorem reconcileLoop_eq (stats : AList ReleaseDetail) (q : List Pending) :
    reconcileLoop stats q =
      (q.filterMap (updOf stats),
       q.filter (fun p => decide (mapGet stats p.name = none))) := by
  induction q with
  | nil => rfl
  | cons p rest ih =>
    simp only [reconcileLoop, ih]
    cases hm : mapGet stats p.name with
    | some d => simp [hm, updOf, List.filterMap_cons]
    | none => simp [hm, updOf, List.filterMap_cons]

theorem wsOk_collapseWsAux (s : Str) : ∀ b, wsOk b (collapseWsAux b s) = true := by
  induction s with
  | nil => intro b; rfl
  | cons c rest ih =>
    intro b
    simp only [collapseWsAux]
    by_cases hw : isWs c = true
    · rw [if_pos hw]
      cases b
      · simpa [wsOk, isWs] using ih true
      · simpa using ih true
    · have hw' : isWs c = false := by simpa using hw
      rw [if_neg (by simp [hw'])]
      simpa [wsOk, hw'] using ih false

theorem collapseWsAux_id (s : Str) : ∀ b, wsOk b s = true → collapseWsAux b s = s := by
  induction s with
  | nil => intro b _; rfl
  | cons c rest ih =>
    intro b h
    by_cases hw : isWs c = true
    · rw [wsOk, if_pos hw] at h
      simp only [Bool.and_eq_true] at h
      obtain ⟨⟨h1, h2⟩, h3⟩ := h
      have hc : c = ' ' := of_decide_eq_true h1
      have hb : b = false := by
        cases b
        · rfl
        · simp at h2
      subst hb
      simp only [collapseWsAux, if_pos hw]
      rw [ih true h3, hc]
      rfl
    · rw [wsOk, if_neg hw] at h
      simp only [collapseWsAux, if_neg hw]
      rw [ih false h]

theorem wsOk_space (s : Str) : ∀ b, wsOk b s = true →
    ∀ c ∈ s, isWs c = true → c = ' ' := by
  induction s with
  | nil => intro b _ c hc; cases hc
  | cons x rest ih =>
    intro b h c hc hwc
    rcases List.mem_cons.mp hc with rfl | hc'
    · rw [wsOk, if_pos hwc] at h
      simp only [Bool.and_eq_true] at h
      exact of_decide_eq_true h.1.1
    · by_cases hw : isWs x = true
      · rw [wsOk, if_pos hw] at h
        simp only [Bool.and_eq_true] at h
        exact ih true h.2 c hc' hwc
      · rw [wsOk, if_neg hw] at h
        exact ih false h c hc' hwc

theorem leadOk_dropWhile (l : Str) : leadOk (l.dropWhile isWs) = true := by
  induction l with
  | nil => rfl
  | cons c rest ih =>
    by_cases hw : isWs c = true
    · rw [List.dropWhile_cons, if_pos (by simp [hw])]
      exact ih
    · have hw' : isWs c = false := by simpa using hw
      rw [List.dropWhile_cons, if_neg (by simp [hw'])]
      simp [leadOk, hw']

theorem leadOk_of_isPre (x y : Str) (hx : x <+: y) (hy : leadOk y = true) :
    leadOk x = true := by
  obtain ⟨t, rfl⟩ := hx
  cases x with
  | nil => rfl
  | cons c r => simpa [leadOk] using hy

theorem strTrim_isPre (s : Str) : strTrim s <+: s.dropWhile isWs := by
  apply List.reverse_suffix.mp
  rw [strTrim, List.reverse_reverse]
  exact List.dropWhile_suffix isWs

theorem stripTrailPeriod_isPre (x : Str) : stripTrailPeriod x <+: x := by
  rw [stripTrailPeriod]
  split
  · next r heq =>
    have h1 : '.' :: r <:+ x.reverse := heq ▸ List.dropWhile_suffix isWs
    have h2 : r <:+ x.reverse := (List.suffix_cons '.' r).trans h1
    apply List.reverse_suffix.mp
    rw [List.reverse_reverse]
    exact h2
  · exact List.prefix_refl x

theorem leadOk_collapseWs (u : Str) (h : leadOk u = true) :
    leadOk (collapseWs u) = true := by
  cases u with
  | nil => rfl
  | cons c r =>
    have hc : isWs c = false := by simpa [leadOk] using h
    rw [collapseWs, collapseWsAux, if_neg (by simp [hc])]
    simp [leadOk, hc]

theorem revDropWhile_id (t : Str)
    (hlast : ∀ c, t.getLast? = some c → isWs c = false) :
    t.reverse.dropWhile isWs = t.reverse := by
  cases hr : t.reverse with
  | nil => rfl
  | cons c r =>
    have hlc : t.getLast? = some c := by
      rw [← List.head?_reverse, hr]
      rfl
    rw [List.dropWhile_cons, if_neg (by simp [hlast c hlc])]

theorem trim_of_clean (t : Str) (hlead : leadOk t = true)
    (hlast : ∀ c, t.getLast? = some c → isWs c = false) : strTrim t = t := by
  have h1 : t.dropWhile isWs = t := by
    cases t with
    | nil => rfl
    | cons c r =>
      have hc : isWs c = false := by simpa [leadOk] using hlead
      rw [List.dropWhile_cons, if_neg (by simp [hc])]
  rw [strTrim, h1, revDropWhile_id t hlast, List.reverse_reverse]

theorem strip_of_clean (t : Str)
    (hlast : ∀ c, t.getLast? = some c → isWs c = false)
    (hdot : t.getLast? ≠ some '.') : stripTrailPeriod t = t := by
  rw [stripTrailPeriod, revDropWhile_id t hlast]
  split
  · next r heq =>
    exfalso
    apply hdot
    rw [← List.head?_reverse, heq]
    rfl
  · rfl

theorem reconcile_empty (q : List Pending) :
    reconcileLoop ([] : AList ReleaseDetail) q = ([], q) := by
  induction q with
  | nil => rfl
  | cons p rest ih => simp [reconcileLoop, ih, mapGet]

theorem parseReleaseText_nil (text : Str)
    (h : ∀ l ∈ splitLines text, relLineScan l = none) :
    parseReleaseText text = [] := by
  rw [parseReleaseText]
  have hgen : ∀ (lines : List Str) (m : AList ReleaseDetail),
      (∀ l ∈ lines, relLineScan l = none) →
      lines.foldl (fun m line => match relLineScan line with
        | some r => mapSet m (relDetailOf r).1 (relDetailOf r).2
        | none => m) m = m := by
    intro lines
    induction lines with
    | nil => intro m _; rfl
    | cons l rest ih =>
      intro m hall
      simp only [List.foldl_cons]
      rw [hall l (List.mem_cons_self _ _)]
      exact ih m (fun x hx => hall x (List.mem_cons_of_mem _ hx))
  exact hgen _ [] h

/-! ### Claims -/

/-- C1: the snapshot differ is exact set difference on booking ids.  For
mappings whose values carry their key as `id` (as every extracted mapping
does), a record is in `added` exactly when its id is a key of the current
mapping and not of the previous one, and in `removed` exactly when its id
is a key of the previous mapping and not of the current one; in particular
a record whose id is present on both sides produces no event, whatever its
other fields. -/
theorem C1_differ_exact (cur prev : AList Booking)
    (hc : ∀ p ∈ cur, (Prod.snd p).id = p.1)
    (hp : ∀ p ∈ prev, (Prod.snd p).id = p.1) :
    (∀ b : Booking, b ∈ addedOf cur prev ↔
        ((b.id, b) ∈ cur ∧ b.id ∉ prev.map Prod.fst)) ∧
    (∀ b : Booking, b ∈ removedOf cur prev ↔
        ((b.id, b) ∈ prev ∧ b.id ∉ cur.map Prod.fst)) := by
  constructor
  · intro b
    constructor
    · intro hb
      simp only [addedOf, List.mem_map, List.mem_filter] at hb
      obtain ⟨p, ⟨hpc, hkey⟩, rfl⟩ := hb
      obtain ⟨k, v⟩ := p
      have hid := hc (k, v) hpc
      simp only at hid hkey ⊢
      rw [hid]
      have hk : mapHasKey prev k = false := by simpa using hkey
      exact ⟨hpc, (mapHasKey_eq_false prev k).1 hk⟩
    · rintro ⟨hin, hnk⟩
      simp only [addedOf, List.mem_map, List.mem_filter]
      refine ⟨(b.id, b), ⟨hin, ?_⟩, rfl⟩
      simpa using (mapHasKey_eq_false prev b.id).2 hnk
  · intro b
    constructor
    · intro hb
      simp only [removedOf, List.mem_map, List.mem_filter] at hb
      obtain ⟨p, ⟨hpc, hkey⟩, rfl⟩ := hb
      obtain ⟨k, v⟩ := p
      have hid := hp (k, v) hpc
      simp only at hid hkey ⊢
      rw [hid]
      have hk : mapHasKey cur k = false := by simpa using hkey
      exact ⟨hpc, (mapHasKey_eq_false cur k).1 hk⟩
    · rintro ⟨hin, hnk⟩
      simp only [removedOf, List.mem_map, List.mem_filter]
      refine ⟨(b.id, b), ⟨hin, ?_⟩, rfl⟩
      simpa using (mapHasKey_eq_false cur b.id).2 hnk

/-- Witness for C1: on the spec's concrete scenario the differ returns
`added = [B2: John Roe]` and `removed = []`, and the characterization
applies with its hypotheses discharged. -/
theorem C1_differ_exact_witness :
    addedOf curEx prevEx = [johnCur] ∧ removedOf curEx prevEx = [] ∧
    (johnCur ∈ addedOf curEx prevEx ↔
      ((johnCur.id, johnCur) ∈ curEx ∧ johnCur.id ∉ prevEx.map Prod.fst)) :=
  ⟨by decide, by decide,
    (C1_differ_exact curEx prevEx (by decide) (by decide)).1 johnCur⟩

/-- C9: an extracted mapping holds at most one record per booking
identifier (its key list has no duplicates), and the record retained under
an id is the one built from the last block of the text carrying that id;
this holds for both extractors. -/
theorem C9_last_block_wins (text i : Str) :
    ((parseRosterToBookings text).map Prod.fst).Nodup ∧
    mapGet (parseRosterToBookings text) i =
      lastSome? (((splitBlocks text).filterMap buildTBooking).filter
        (fun b => decide (b.bookingNumber = i))) ∧
    ((extractBookings text).map Prod.fst).Nodup ∧
    mapGet (extractBookings text) i =
      lastSome? (((splitBlocks text).filterMap buildBooking).filter
        (fun b => decide (b.id = i))) := by
  refine ⟨?_, ?_, ?_, ?_⟩
  · exact nodup_keys_foldl_set TBooking.bookingNumber _ [] List.nodup_nil
  · rw [parseRosterToBookings, mapGet_foldl_set TBooking.bookingNumber]
    cases hl : lastSome? (((splitBlocks text).filterMap buildTBooking).filter
        (fun b => decide (b.bookingNumber = i))) <;> simp [hl, mapGet]
  · exact nodup_keys_foldl_set Booking.id _ [] List.nodup_nil
  · rw [extractBookings, mapGet_foldl_set Booking.id]
    cases hl : lastSome? (((splitBlocks text).filterMap buildBooking).filter
        (fun b => decide (b.id = i))) <;> simp [hl, mapGet]

/-- C10: a block with a booking id whose name field matches nothing still
yields a record under that id, with the sentinel name `Unknown`, in both
extractors. -/
theorem C10_unknown_name (text block i : Str)
    (hb : block ∈ splitBlocks text)
    (hid : extractId block = some i)
    (hname : extractName block = none) :
    (buildBooking block).map Booking.name = some ("Unknown".data) ∧
    (buildTBooking block).map TBooking.name = some ("Unknown".data) ∧
    (mapGet (extractBookings text) i).isSome = true ∧
    (mapGet (parseRosterToBookings text) i).isSome = true := by
  have hS := buildBooking_eq block i hid
  have hT := buildTBooking_eq block i hid
  have hcn : computeName block = "Unknown".data := by
    simp [computeName, hname]
  have hcnT : computeNameT block = "Unknown".data := by
    simp only [computeNameT, hname]
    rw [if_neg (by decide)]
    decide
  refine ⟨?_, ?_, ?_, ?_⟩
  · rw [hS, Option.map_some']
    simp [hcn]
  · rw [hT, Option.map_some']
    simp [hcnT]
  · have hmem : (⟨i, computeName block, computeBookDate block, computeRelDate block,
        srvCharges block⟩ : Booking) ∈ (splitBlocks text).filterMap buildBooking :=
      List.mem_filterMap.mpr ⟨block, hb, hS⟩
    have hres := mapGet_isSome_of_mem Booking.id _ _ hmem
    simpa [extractBookings] using hres
  · have hmem : (⟨i, computeNameT block, computeBookDate block, computeRelDate block,
        toolsCharges block, block.take 500⟩ : TBooking) ∈
        (splitBlocks text).filterMap buildTBooking :=
      List.mem_filterMap.mpr ⟨block, hb, hT⟩
    have hres := mapGet_isSome_of_mem TBooking.bookingNumber _ _ hmem
    simpa [parseRosterToBookings] using hres

/-- Witness for C10: a concrete block whose name line cannot match. -/
theorem C10_unknown_name_witness :
    (buildBooking c10Block).map Booking.name = some ("Unknown".data) ∧
    (buildTBooking c10Block).map TBooking.name = some ("Unknown".data) ∧
    (mapGet (extractBookings c10Block) ("7".data)).isSome = true ∧
    (mapGet (parseRosterToBookings c10Block) ("7".data)).isSome = true :=
  C10_unknown_name c10Block c10Block ("7".data) (by decide) (by decide) (by decide)

/-- C4 (amended): the sentinel release-date line keeps the record's release
date at `Not Released`; a parsable time-then-date line yields
`date + " " + time`; an unparsable release-date line also keeps the default
`Not Released` (not `Unknown`); `Unknown` is the sentinel of an unparsable
book date. -/
theorem C4_release_date (block : Str) :
    (bookDateScan block = none → computeBookDate block = ("Unknown".data)) ∧
    (relDateScan block = none → computeRelDate block = ("Not Released".data)) ∧
    (relDateScan block = some RelParse.sentinel →
      computeRelDate block = ("Not Released".data)) ∧
    (∀ tm d, relDateScan block = some (RelParse.timedate tm d) →
      computeRelDate block = d ++ ' ' :: tm) := by
  refine ⟨fun h => ?_, fun h => ?_, fun h => ?_, fun tm d h => ?_⟩
  · simp [computeBookDate, h]
  · simp [computeRelDate, h]
  · simp [computeRelDate, h]
  · simp [computeRelDate, h]

/-- Witness for C4 (amended): the three release-date shapes and a missing
book date, on concrete blocks. -/
theorem C4_release_date_witness :
    computeRelDate c4Block = ("Not Released".data) ∧
    computeRelDate c4SentinelBlock = ("Not Released".data) ∧
    computeRelDate c4TimeBlock = ("1/2/25".data) ++ ' ' :: ("10:00:00".data) ∧
    computeBookDate c4SentinelBlock = ("Unknown".data) :=
  ⟨(C4_release_date c4Block).2.1 (by decide),
   (C4_release_date c4SentinelBlock).2.2.1 (by decide),
   (C4_release_date c4TimeBlock).2.2.2 ("10:00:00".data) ("1/2/25".data) (by decide),
   (C4_release_date c4SentinelBlock).1 (by decide)⟩

/-- Counterexample to C4 as stated: a block whose release-date line is
unparsable (neither sentinel nor time-then-date) gets release date
`Not Released`, not the claimed `Unknown`. -/
theorem C4_counterexample :
    relDateScan c4Block = none ∧
    (buildBooking c4Block).map Booking.releaseDate = some ("Not Released".data) ∧
    ¬ ((buildBooking c4Block).map Booking.releaseDate = some ("Unknown".data)) := by
  refine ⟨by decide, by decide, by decide⟩

/-- C7: a block carrying the booking-identifier field always yields a
record keyed by that id (extraction is total and never drops such a
block), and when no line of the block matches the charge pattern the
record's charge set is empty, in both extractors. -/
theorem C7_charges_fail_soft (text block i : Str)
    (hb : block ∈ splitBlocks text)
    (hid : extractId block = some i)
    (hT : ∀ l ∈ splitLines block, toolsChargeOf (strTrim l) = none)
    (hSv : ∀ l ∈ splitLines block, srvChargeOf (strTrim l) = none) :
    (buildTBooking block).map TBooking.charges = some [] ∧
    (mapGet (parseRosterToBookings text) i).isSome = true ∧
    (buildBooking block).map Booking.charges = some [] ∧
    (mapGet (extractBookings text) i).isSome = true := by
  have hS := buildBooking_eq block i hid
  have hTb := buildTBooking_eq block i hid
  have hTC : toolsCharges block = [] := by
    rw [toolsCharges, toolsChargesLoop_nil _ hT false]
    rfl
  have hSC : srvCharges block = [] := by
    rw [srvCharges, srvChargesLoop_nil _ hSv false]
    rfl
  refine ⟨?_, ?_, ?_, ?_⟩
  · rw [hTb, Option.map_some']
    simp [hTC]
  · have hmem : (⟨i, computeNameT block, computeBookDate block, computeRelDate block,
        toolsCharges block, block.take 500⟩ : TBooking) ∈
        (splitBlocks text).filterMap buildTBooking :=
      List.mem_filterMap.mpr ⟨block, hb, hTb⟩
    have hres := mapGet_isSome_of_mem TBooking.bookingNumber _ _ hmem
    simpa [parseRosterToBookings] using hres
  · rw [hS, Option.map_some']
    simp [hSC]
  · have hmem : (⟨i, computeName block, computeBookDate block, computeRelDate block,
        srvCharges block⟩ : Booking) ∈ (splitBlocks text).filterMap buildBooking :=
      List.mem_filterMap.mpr ⟨block, hb, hS⟩
    have hres := mapGet_isSome_of_mem Booking.id _ _ hmem
    simpa [extractBookings] using hres

/-- Witness for C7: a concrete block whose charges section is unparsable
still yields a record with an empty charge set under its id. -/
theorem C7_charges_fail_soft_witness :
    (buildTBooking c7Block).map TBooking.charges = some [] ∧
    (mapGet (parseRosterToBookings c7Block) ("8".data)).isSome = true ∧
    (buildBooking c7Block).map Booking.charges = some [] ∧
    (mapGet (extractBookings c7Block) ("8".data)).isSome = true :=
  C7_charges_fail_soft c7Block c7Block ("8".data) (by decide) (by decide)
    (by decide) (by decide)

/-- C2: on a changed run, a booking removed while the release-detail map
has no entry for its name is persisted into the pending queue; one
reconciliation pass over any queue emits exactly one update per queued
entry whose name the current detail map resolves and drops exactly those
entries from the queue, keeping every unmatched entry queued in order. -/
theorem C2_pending_lifecycle (curB prevB : AList Booking)
    (stats stats2 : AList ReleaseDetail) (pending0 : List Pending)
    (ts hash text : Str) (b : Booking)
    (hrem : b ∈ removedOf curB prevB)
    (hmiss : mapGet stats b.name = none) :
    ((⟨b.name, b, ts⟩ : Pending) ∈
      (serverChangedBody curB prevB stats pending0 ts hash text).stillPending) ∧
    (∀ q : List Pending, reconcileLoop stats2 q =
      (q.filterMap (updOf stats2),
       q.filter (fun p => decide (mapGet stats2 p.name = none)))) ∧
    (∀ (q : List Pending) (p : Pending) (d : ReleaseDetail),
      mapGet stats2 p.name = some d → p ∈ q →
      ((⟨p.name, d, p.bookingData.charges⟩ : Updated) ∈ (reconcileLoop stats2 q).1 ∧
        p ∉ (reconcileLoop stats2 q).2)) := by
  refine ⟨?_, fun q => reconcileLoop_eq stats2 q, fun q p d hd hq => ?_⟩
  · simp only [serverChangedBody]
    rw [reconcileLoop_eq, List.mem_filter]
    constructor
    · rw [List.mem_append]
      right
      rw [List.mem_map]
      refine ⟨b, ?_, rfl⟩
      rw [List.mem_filter]
      exact ⟨hrem, by simp [formatReleased, hmiss]⟩
    · simp [hmiss]
  · rw [reconcileLoop_eq]
    refine ⟨?_, ?_⟩
    · exact List.mem_filterMap.mpr ⟨p, hq, by simp [updOf, hd]⟩
    · intro hcon
      rcases List.mem_filter.mp hcon with ⟨_, hdec⟩
      rw [hd] at hdec
      simp at hdec

/-- Witness for C2 on the spec's own scenario: Sam Lee disappears with no
detail, is queued, and a later run with a matching detail resolves the
entry once and removes it from the queue. -/
theorem C2_pending_lifecycle_witness :
    ((⟨c2Sam.name, c2Sam, "T1".data⟩ : Pending) ∈
      (serverChangedBody c2CurMap c2PrevMap [] [] ("T1".data) ("H".data)
        ("X".data)).stillPending) ∧
    ((⟨c2Pending.name, c2Detail, c2Pending.bookingData.charges⟩ : Updated) ∈
      (reconcileLoop c2Stats2 [c2Pending]).1 ∧
      c2Pending ∉ (reconcileLoop c2Stats2 [c2Pending]).2) :=
  have h := C2_pending_lifecycle c2CurMap c2PrevMap [] c2Stats2 []
    ("T1".data) ("H".data) ("X".data) c2Sam (by decide) (by decide)
  ⟨h.1, h.2.2 [c2Pending] c2Pending c2Detail (by decide) (by decide)⟩

/-- C8: the release-detail extractor fails open: a failed fetch, a non-ok
response, a failed PDF parse, and a feed none of whose lines matches the
release pattern all yield the empty mapping, and with the empty mapping a
changed run resolves nothing and queues every removed booking as pending. -/
theorem C8_fail_open (text : Str)
    (hno : ∀ l ∈ splitLines text, relLineScan l = none) :
    fetchReleaseStats FetchOutcome.fetchThrew = [] ∧
    fetchReleaseStats FetchOutcome.notOk = [] ∧
    fetchReleaseStats FetchOutcome.parseThrew = [] ∧
    fetchReleaseStats (FetchOutcome.gotText text) = [] ∧
    (∀ (curB prevB : AList Booking) (pending0 : List Pending) (ts hash t2 : Str),
      (serverChangedBody curB prevB [] pending0 ts hash t2).stillPending =
        pending0 ++ (removedOf curB prevB).map (fun b => ⟨b.name, b, ts⟩) ∧
      (serverChangedBody curB prevB [] pending0 ts hash t2).updatedReleases = []) := by
  refine ⟨rfl, rfl, rfl, parseReleaseText_nil text hno, ?_⟩
  intro curB prevB pending0 ts hash t2
  have hfil : (removedOf curB prevB).filter
      (fun b => (formatReleased b [] true).hasPendingDetails) = removedOf curB prevB :=
    List.filter_eq_self.mpr (fun b _ => by simp [formatReleased, mapGet])
  constructor
  · simp only [serverChangedBody]
    rw [reconcile_empty, hfil]
  · simp only [serverChangedBody]
    rw [reconcile_empty]

/-- Witness for C8: a feed text with no matching line, and the hypotheses
discharged concretely. -/
theorem C8_fail_open_witness :
    fetchReleaseStats (FetchOutcome.gotText ("no release lines here".data)) = [] ∧
    (serverChangedBody c2CurMap c2PrevMap [] [] ("T1".data) ("H".data)
        ("X".data)).updatedReleases = [] :=
  have h := C8_fail_open ("no release lines here".data) (by decide)
  ⟨h.2.2.2.1,
   (h.2.2.2.2 c2CurMap c2PrevMap [] ("T1".data) ("H".data) ("X".data)).2⟩

/-- C3 (amended): a run observing raw text identical to the stored text
(hence an equal fingerprint) reports `hasChanged = false` and skips the
differ, so both outputs are empty; the workflow's save-history step then
appends nothing to the change log, but the server route still appends one
`No change` log entry recording no events (plus a release-details entry
only when queued pending releases resolve on that run). -/
theorem C3_unchanged_run (fingerprint : Str → Str) (text prevText ts : Str)
    (pending0 : List Pending) (stats : AList ReleaseDetail)
    (heq : text = prevText) :
    (serverRun fingerprint (some (fingerprint prevText)) (some prevText)
        pending0 stats text ts).hasChanged = false ∧
    (serverRun fingerprint (some (fingerprint prevText)) (some prevText)
        pending0 stats text ts).addedLines = [] ∧
    (serverRun fingerprint (some (fingerprint prevText)) (some prevText)
        pending0 stats text ts).removedLines = [] ∧
    (serverRun fingerprint (some (fingerprint prevText)) (some prevText)
        pending0 stats text ts).logEntries =
      runLogEntry false false ts [] [] ::
        (if (reconcileLoop stats pending0).1.isEmpty then []
         else [updateLogEntry ts (reconcileLoop stats pending0).1]) ∧
    (compareRosterStep fingerprint (some (fingerprint prevText))
        (some prevText) text).hasChanged = false ∧
    (compareRosterStep fingerprint (some (fingerprint prevText))
        (some prevText) text).addedLines = [] ∧
    (compareRosterStep fingerprint (some (fingerprint prevText))
        (some prevText) text).removedLines = [] ∧
    toolsHistoryEntries (compareRosterStep fingerprint (some (fingerprint prevText))
        (some prevText) text) ts = [] := by
  subst heq
  have hbranch : serverRun fingerprint (some (fingerprint text)) (some text)
      pending0 stats text ts = serverUnchangedBody stats pending0 ts
        (fingerprint text) text := by
    simp only [serverRun]
    exact if_neg (fun h => h rfl)
  have hstep : compareRosterStep fingerprint (some (fingerprint text)) (some text)
      text = ⟨false, false, [], [], 0, 0⟩ := by
    simp only [compareRosterStep]
    exact if_neg (fun h => h rfl)
  rw [hbranch, hstep]
  exact ⟨rfl, rfl, rfl, rfl, rfl, rfl, rfl, rfl⟩

/-- Witness for C3 (amended): concrete unchanged run. -/
theorem C3_unchanged_run_witness :
    (serverRun (fun _ => "H".data) (some ((fun (_ : Str) => "H".data) ("x".data)))
        (some ("x".data)) [] [] ("x".data) ("T".data)).hasChanged = false ∧
    toolsHistoryEntries (compareRosterStep (fun _ => "H".data)
        (some ((fun (_ : Str) => "H".data) ("x".data))) (some ("x".data))
        ("x".data)) ("T".data) = [] :=
  have h := C3_unchanged_run (fun _ => "H".data) ("x".data) ("x".data)
    ("T".data) [] [] rfl
  ⟨h.1, h.2.2.2.2.2.2.2⟩

/-- Counterexample to C3 as stated: the server route appends a log entry on
an unchanged run (the `No change` entry), so the change log does not stay
untouched. -/
theorem C3_counterexample :
    (serverRun (fun _ => "H".data) (some ("H".data)) (some ("x".data)) [] []
        ("x".data) ("T".data)).hasChanged = false ∧
    (serverRun (fun _ => "H".data) (some ("H".data)) (some ("x".data)) [] []
        ("x".data) ("T".data)).logEntries.length = 1 ∧
    (serverRun (fun _ => "H".data) (some ("H".data)) (some ("x".data)) [] []
        ("x".data) ("T".data)).logEntries ≠ [] := by
  refine ⟨by decide, by decide, by decide⟩

/-- C5 (amended): the added and removed lists handed downstream are capped
at 30 entries in both pipelines; the workflow step records the true totals
(`addedCount`, `removedCount`) of the uncapped line differences alongside
the truncated lists, while the server route's change-log entry only ever
sees the truncated lists (their capped lengths are what it records). -/
theorem C5_display_cap (fingerprint : Str → Str) (ph pt currentText : Str)
    (curB prevB : AList Booking) (stats : AList ReleaseDetail)
    (pending0 : List Pending) (ts hash text : Str)
    (hch : fingerprint currentText ≠ ph) :
    (serverChangedBody curB prevB stats pending0 ts hash text).addedLines.length ≤ 30 ∧
    (serverChangedBody curB prevB stats pending0 ts hash text).removedLines.length ≤ 30 ∧
    (compareRosterStep fingerprint (some ph) (some pt) currentText).addedLines =
      (lineDiff currentText pt).take MAX_LINES_TO_PASS ∧
    (compareRosterStep fingerprint (some ph) (some pt) currentText).removedLines =
      (lineDiff pt currentText).take MAX_LINES_TO_PASS ∧
    (compareRosterStep fingerprint (some ph) (some pt) currentText).addedCount =
      (lineDiff currentText pt).length ∧
    (compareRosterStep fingerprint (some ph) (some pt) currentText).removedCount =
      (lineDiff pt currentText).length ∧
    (compareRosterStep fingerprint (some ph) (some pt) currentText).addedLines.length ≤ 30 ∧
    (compareRosterStep fingerprint (some ph) (some pt) currentText).removedLines.length ≤ 30 := by
  have hstep : compareRosterStep fingerprint (some ph) (some pt) currentText =
      { hasChanged := true, isFirstRun := false,
        addedLines := (lineDiff currentText pt).take MAX_LINES_TO_PASS,
        removedLines := (lineDiff pt currentText).take MAX_LINES_TO_PASS,
        addedCount := (lineDiff currentText pt).length,
        removedCount := (lineDiff pt currentText).length } := by
    simp only [compareRosterStep]
    exact if_pos hch
  refine ⟨?_, ?_, ?_, ?_, ?_, ?_, ?_, ?_⟩
  · simp only [serverChangedBody]
    simp [List.length_take_le]
  · simp only [serverChangedBody]
    simp [List.length_take_le]
  · rw [hstep]
  · rw [hstep]
  · rw [hstep]
  · rw [hstep]
  · rw [hstep]
    simp [MAX_LINES_TO_PASS, List.length_take_le]
  · rw [hstep]
    simp [MAX_LINES_TO_PASS, List.length_take_le]

/-- Witness for C5 (amended), at a concrete changed run. -/
theorem C5_display_cap_witness :
    (serverChangedBody c5Cur [] [] [] ("T".data) ("H".data) ("X".data)).addedLines.length ≤ 30 ∧
    (compareRosterStep (fun _ => "H".data) (some ("G".data)) (some ("a".data))
        ("a\nb".data)).addedCount = (lineDiff ("a\nb".data) ("a".data)).length :=
  have h := C5_display_cap (fun _ => "H".data) ("G".data) ("a".data) ("a\nb".data)
    c5Cur [] [] [] ("T".data) ("H".data) ("X".data) (by decide)
  ⟨h.1, h.2.2.2.2.1⟩

/-- C6 (amended): the release-feed name cleaning is idempotent on every
name whose cleaned form ends in neither a period nor a space.  (The cleaned
form can end in a period when the input had several trailing periods —
`replace(/\.\s*$/, "")` strips only the last one — and in a space when the
stripped period exposed interior whitespace; a second clean then shortens
such strings further.) -/
theorem C6_clean_idem (s : Str)
    (hdot : (cleanName s).getLast? ≠ some '.')
    (hsp : (cleanName s).getLast? ≠ some ' ') :
    cleanName (cleanName s) = cleanName s := by
  have hws : wsOk false (cleanName s) = true :=
    wsOk_collapseWsAux (stripTrailPeriod (strTrim s)) false
  have hlead : leadOk (cleanName s) = true :=
    leadOk_collapseWs _ (leadOk_of_isPre _ _ (stripTrailPeriod_isPre (strTrim s))
      (leadOk_of_isPre _ _ (strTrim_isPre s) (leadOk_dropWhile s)))
  have hlast : ∀ c, (cleanName s).getLast? = some c → isWs c = false := by
    intro c hc
    by_cases hw : isWs c = true
    · have hsp' : c = ' ' :=
        wsOk_space (cleanName s) false hws c (List.mem_of_getLast?_eq_some hc) hw
      rw [hsp'] at hc
      exact absurd hc hsp
    · simpa using hw
  calc cleanName (cleanName s)
      = collapseWs (stripTrailPeriod (strTrim (cleanName s))) := rfl
    _ = collapseWs (cleanName s) := by
        rw [trim_of_clean (cleanName s) hlead hlast,
          strip_of_clean (cleanName s) hlast hdot]
    _ = cleanName s := collapseWsAux_id (cleanName s) false hws

/-- Witness for C6 (amended): a realistic multi-space name with a middle
initial cleans to a stable form. -/
theorem C6_clean_idem_witness :
    cleanName (cleanName ("  ALLEN,   HAROLD F. III ".data)) =
      cleanName ("  ALLEN,   HAROLD F. III ".data) :=
  C6_clean_idem ("  ALLEN,   HAROLD F. III ".data) (by decide) (by decide)

/-- Counterexample to C6 as stated: with two trailing periods one clean
strips only the final period, so a second clean strips again and the
results differ. -/
theorem C6_counterexample :
    cleanName ("A..".data) = ("A.".data) ∧
    cleanName (cleanName ("A..".data)) = ("A".data) ∧
    cleanName (cleanName ("A..".data)) ≠ cleanName ("A..".data) := by
  refine ⟨by decide, by decide, by decide⟩

/-- Counterexample to C5 as stated: with 31 added records the server run's
lists are truncated to 30, and the change-log entry records the capped
count (`BOOKED (30):`) while the true total 31 appears nowhere in it. -/
theorem C5_counterexample :
    (addedOf c5Cur []).length = 31 ∧
    (serverChangedBody c5Cur [] [] [] ("T".data) ("H".data) ("X".data)).addedLines.length = 30 ∧
    containsSub ("BOOKED (30):".data)
      ((serverChangedBody c5Cur [] [] [] ("T".data) ("H".data) ("X".data)).logEntries.headD []) = true ∧
    containsSub ("31".data)
      ((serverChangedBody c5Cur [] [] [] ("T".data) ("H".data) ("X".data)).logEntries.headD []) = false := by
  refine ⟨by decide, by decide, by decide, by decide⟩


/-- Validation of the embedding on a complete well-formed record block:
every field of the record parses as the source would parse it. -/
theorem exBlock_parses :
    mapGet (parseRosterToBookings exBlock) ("25-001".data) =
      some ⟨"25-001".data, "DOE, JANE".data, "1/2/2025 9:30:00".data,
        "Not Released".data, ["Assault".data], exBlock.take 500⟩ := by
  decide

/-- Validation of the embedding on a matching release-feed line. -/
theorem exRelLine_parses :
    mapGet (parseReleaseText exRelLine) ("DOE, JANE".data) =
      some ⟨"10/01/25 14:30:00".data, "RPR".data, "1d2h3m".data,
        "$1,500.00".data⟩ := by
  decide

end Roster
